import Mathlib

/-!
Shallow embedding of the discount resolution and pricing engine of the
e-commerce backend (`src/routes/index.js`, `DiscountService`, together with
the `Discount` mongoose model and its `pre('save')` hook).

Modelling conventions:
* Mongo ObjectIds are modelled as `Nat`, category names and user-group
  labels as `String`, and timestamps as `Int` (milliseconds); `now` is an
  explicit parameter wherever the source calls `new Date()`.
* JavaScript numbers are modelled as exact rationals `ℚ`;
  `Math.round(z * 100) / 100` rounds half toward positive infinity at two
  decimals (`round2`), while `parseFloat(z.toFixed(2))` extracts the sign
  and rounds the magnitude half upward (`toFixed2`) — the two differ on
  negative inputs.
* The document stores are in-memory lists; `Model.find(query)` is
  `List.filter` (preserving store order) and `.sort({percentage: -1})` is a
  stable insertion sort by descending percentage.
* Fields that a JS result object may omit are modelled as `Option`.
-/

namespace DiscountEngine

/-- The `type` enum of the Discount schema:
`['product', 'category', 'userGroup', 'general']`. -/
inductive DiscountType where
  | product
  | category
  | userGroup
  | general
deriving DecidableEq, Repr

/-- A Discount document (`src/unnamed/part_014`, `discountSchema`): every
document carries `products` and `categories` arrays and a `userGroup` string
regardless of its `type` (the schema does not make the scope payload
conditional on the type). `userGroup = ""` models an unset string field. -/
structure Discount where
  dId : Nat
  percentage : ℚ
  type : DiscountType
  products : List Nat
  categories : List String
  userGroup : String
  startDate : Int
  endDate : Int
  active : Bool
deriving DecidableEq, Repr

/-- A Product document, restricted to the fields the engine consumes
(`src/models/Product.js`: `_id`, `category`, `price`). -/
structure Product where
  pId : Nat
  category : String
  price : ℚ
deriving DecidableEq, Repr

/-- A User document, restricted to the fields the engine consumes
(`src/unnamed/part_014`, `userSchema`: `_id`, `userGroup`).
`userGroup = ""` models a falsy (unset) group. -/
structure User where
  uId : Nat
  userGroup : String
deriving DecidableEq, Repr

/-- The three document stores the engine queries. -/
structure DB where
  products : List Product
  users : List User
  discounts : List Discount
deriving Repr

/-- `Math.round z` for JavaScript: round half toward positive infinity
(`Math.round(0.5) = 1`, `Math.round(-0.5) = -0`). -/
def jsRound (q : ℚ) : ℤ := Int.floor (q + 1 / 2)

/-- `Math.round(z * 100) / 100`: rounding to two decimal places, halves
toward positive infinity. -/
def round2 (q : ℚ) : ℚ := (jsRound (q * 100) : ℚ) / 100

/-- `parseFloat(z.toFixed(2))`: ECMA-262 `toFixed` first extracts the sign
and then rounds the magnitude to the nearest hundredth, a tie picking the
larger candidate — so `(-0.005).toFixed(2) = "-0.01"`, which differs from
`Math.round`-style rounding on negative inputs. -/
def toFixed2 (q : ℚ) : ℚ := if q < 0 then -(round2 (-q)) else round2 q

/-- `Product.findById` / `User.findById`: first document with the given id. -/
def findProduct (ps : List Product) (pid : Nat) : Option Product :=
  ps.find? (fun p => p.pId == pid)

/-- `User.findById`. -/
def findUser (us : List User) (uid : Nat) : Option User :=
  us.find? (fun u => u.uId == uid)

/-- The user-group resolution shared by both engine paths
(`getApplicableDiscounts`: `if (userId) { const user = ...; if (user &&
user.userGroup) ... }`; `applyBulkDiscounts`: `if (userId) { const user =
...; if (user?.userGroup) ... }`): the group label is consulted only when a
user id was supplied, the user exists, and the group string is truthy. -/
def effectiveUserGroup (db : DB) (userId : Option Nat) : Option String :=
  match userId with
  | none => none
  | some uid =>
    match findUser db.users uid with
    | none => none
    | some u => if u.userGroup = "" then none else some u.userGroup

/-- The filter built by `getApplicableDiscounts` (src/routes/index.js
lines 264-285): `$or` of `{products: productId}` (note: no `type` check —
any discount whose `products` array contains the id matches),
`{type:'category', categories: product.category}`, `{type:'general'}`, and,
when a user with a truthy group was resolved, `{type:'userGroup',
userGroup: user.userGroup}`; conjoined with `startDate <= now`,
`endDate >= now`, `active: true`. -/
def singleQueryMatch (product : Product) (productId : Nat)
    (group : Option String) (now : Int) (d : Discount) : Bool :=
  (d.products.contains productId
    || (d.type == DiscountType.category && d.categories.contains product.category)
    || d.type == DiscountType.general
    || (match group with
        | some g => d.type == DiscountType.userGroup && d.userGroup == g
        | none => false))
  && decide (d.startDate ≤ now) && decide (now ≤ d.endDate) && d.active

/-- Stable insertion (descending by `percentage`) used to model
`.sort({percentage: -1})`: an element moves ahead only of strictly smaller
or equal-later elements, keeping store order among equal percentages. -/
def insertDesc (d : Discount) : List Discount → List Discount
  | [] => [d]
  | e :: es =>
    if e.percentage ≤ d.percentage then d :: e :: es else e :: insertDesc d es

/-- Stable sort by descending `percentage`, modelling
`Discount.find(query).sort({percentage: -1})` applied to the filtered store. -/
def sortDesc : List Discount → List Discount
  | [] => []
  | d :: ds => insertDesc d (sortDesc ds)

/-- `DiscountService.getApplicableDiscounts(productId, userId)`: throws
`'Product not found'` when the product id does not resolve, otherwise
returns the matching discounts sorted by descending percentage. -/
def getApplicableDiscounts (db : DB) (now : Int) (productId : Nat)
    (userId : Option Nat) : Except String (List Discount) :=
  match findProduct db.products productId with
  | none => Except.error "Product not found"
  | some product =>
    let group := effectiveUserGroup db userId
    Except.ok (sortDesc (db.discounts.filter (singleQueryMatch product productId group now)))

/-- `DiscountService.calculateBestDiscount`: `discounts[0] || null` (a
discount document is never falsy, so this is the head of the list). -/
def calculateBestDiscount (db : DB) (now : Int) (productId : Nat)
    (userId : Option Nat) : Except String (Option Discount) :=
  (getApplicableDiscounts db now productId userId).map List.head?

/-- The result object of `calculateProductDiscount`; fields absent from
the JS object in the no-discount case are `none`. -/
structure PricingResult where
  originalPrice : ℚ
  discountedPrice : ℚ
  discountPercentage : Option ℚ
  discount : Option Discount
  hasDiscount : Bool
  savedAmount : Option ℚ
  discountType : Option DiscountType
deriving DecidableEq, Repr

/-- `DiscountService.calculateProductDiscount(productId, userId)`
(src/routes/index.js lines 313-347): looks the product up, takes the best
discount, and derives `discountedPrice = Math.round(price * (100 - p)/100
* 100)/100` and `savedAmount = parseFloat((price - discountedPrice)
.toFixed(2))`. -/
def calculateProductDiscount (db : DB) (now : Int) (productId : Nat)
    (userId : Option Nat) : Except String PricingResult :=
  match findProduct db.products productId with
  | none => Except.error "Product not found"
  | some product =>
    match calculateBestDiscount db now productId userId with
    | Except.error e => Except.error e
    | Except.ok none =>
      Except.ok ⟨product.price, product.price, none, none, false, none, none⟩
    | Except.ok (some best) =>
      let discountedPrice := round2 (product.price * ((100 - best.percentage) / 100))
      Except.ok ⟨product.price, discountedPrice, some best.percentage, some best,
        true, some (toFixed2 (product.price - discountedPrice)), some best.type⟩

/-- The result object of one element of `applyBulkDiscounts`: the spread
`{...product, ...}` copies every field of the input product (kept whole in
`base`) and adds the derived pricing fields. -/
structure PricedProduct where
  base : Product
  originalPrice : ℚ
  discountedPrice : ℚ
  discountPercentage : Option ℚ
  discount : Option Discount
  hasDiscount : Bool
  savedAmount : Option ℚ
  discountType : Option DiscountType
deriving DecidableEq, Repr

/-- The first bulk query (src/routes/index.js lines 361-370):
`{$or: [{products: {$in: ids}}, {type:'category', categories: {$in:
distinctCategories}}, {type:'general'}], startDate: {$lte: now}, endDate:
{$gte: now}, active: true}`. As in the single path, the `products` branch
carries no `type` check. -/
def bulkQueryMatch (pids : List Nat) (cats : List String) (now : Int)
    (d : Discount) : Bool :=
  (d.products.any (fun x => pids.contains x)
    || (d.type == DiscountType.category && d.categories.any (fun c => cats.contains c))
    || d.type == DiscountType.general)
  && decide (d.startDate ≤ now) && decide (now ≤ d.endDate) && d.active

/-- The second bulk query (lines 377-384): `{type:'userGroup', userGroup:
user.userGroup, startDate: {$lte: now}, endDate: {$gte: now}, active:
true}`, issued only when the user resolves with a truthy group. -/
def userGroupQueryMatch (g : String) (now : Int) (d : Discount) : Bool :=
  d.type == DiscountType.userGroup && d.userGroup == g
  && decide (d.startDate ≤ now) && decide (now ≤ d.endDate) && d.active

/-- The per-product filter over the merged pool (lines 394-400):
`d.type === 'general' || (d.type === 'category' &&
d.categories.includes(product.category)) || (d.type === 'product' &&
d.products.includes(product._id)) || (d.type === 'userGroup' && userId)`.
The last disjunct tests only that a user id was supplied. -/
def perProductFilter (userId : Option Nat) (product : Product)
    (d : Discount) : Bool :=
  d.type == DiscountType.general
  || (d.type == DiscountType.category && d.categories.contains product.category)
  || (d.type == DiscountType.product && d.products.contains product.pId)
  || (d.type == DiscountType.userGroup && userId.isSome)

/-- `productDiscounts.length ? productDiscounts.reduce((max, d) =>
d.percentage > max.percentage ? d : max) : null`: the first
maximum-percentage element of a nonempty list. -/
def reduceBest : List Discount → Option Discount
  | [] => none
  | d :: ds =>
    some (ds.foldl (fun mx e => if mx.percentage < e.percentage then e else mx) d)

/-- `DiscountService.applyBulkDiscounts(products, userId)` (src/routes/
index.js lines 356-433): one scope query over all products, one optional
user-group query, merged client-side; then a pure per-product
filter/reduce/pricing pass in input order. -/
def applyBulkDiscounts (db : DB) (now : Int) (products : List Product)
    (userId : Option Nat) : List PricedProduct :=
  let allDiscounts := db.discounts.filter
    (bulkQueryMatch (products.map (fun p => p.pId))
      ((products.map (fun p => p.category)).dedup) now)
  let userGroupDiscounts :=
    match effectiveUserGroup db userId with
    | some g => db.discounts.filter (userGroupQueryMatch g now)
    | none => []
  let combinedDiscounts := allDiscounts ++ userGroupDiscounts
  products.map (fun product =>
    let productDiscounts := combinedDiscounts.filter (perProductFilter userId product)
    match reduceBest productDiscounts with
    | none =>
      ⟨product, product.price, product.price, none, none, false, none, none⟩
    | some best =>
      let discountedPrice := round2 (product.price * ((100 - best.percentage) / 100))
      ⟨product, product.price, discountedPrice, some best.percentage, some best,
        true, some (toFixed2 (product.price - discountedPrice)), some best.type⟩)

/-- The pricing fields of a bulk result element, for comparison with the
single-product result. -/
def pricingOf (pp : PricedProduct) : PricingResult :=
  ⟨pp.originalPrice, pp.discountedPrice, pp.discountPercentage, pp.discount,
    pp.hasDiscount, pp.savedAmount, pp.discountType⟩

/-- The `discountSchema.pre('save')` middleware (src/unnamed/part_014 lines
327-332): on every document save it overwrites `active` with
`startDate <= now && endDate >= now`, regardless of the value supplied. -/
def preSave (now : Int) (d : Discount) : Discount :=
  { d with active := decide (d.startDate ≤ now) && decide (now ≤ d.endDate) }

/-- `DiscountService.createDiscount`: `new Discount(data)` followed by
`discount.save()`, which runs the pre-save middleware. -/
def createDiscount (now : Int) (d : Discount) : Discount := preSave now d

/-- A partial update document for `updateDiscount`: `none` means the field
is absent from `updateData`. -/
structure DiscountUpdate where
  percentage : Option ℚ := none
  type : Option DiscountType := none
  products : Option (List Nat) := none
  categories : Option (List String) := none
  userGroup : Option String := none
  startDate : Option Int := none
  endDate : Option Int := none
  active : Option Bool := none
deriving DecidableEq, Repr

/-- `DiscountService.updateDiscount` (src/routes/index.js lines 454-460):
`Discount.findByIdAndUpdate(discountId, updateData, {new: true,
runValidators: true})`. A mongoose `findByIdAndUpdate` issues a query-level
update: it sets exactly the fields present in `updateData` and does not run
the document `pre('save')` middleware, so `active` is not recomputed here. -/
def updateDiscount (d : Discount) (u : DiscountUpdate) : Discount :=
  { d with
    percentage := u.percentage.getD d.percentage
    type := u.type.getD d.type
    products := u.products.getD d.products
    categories := u.categories.getD d.categories
    userGroup := u.userGroup.getD d.userGroup
    startDate := u.startDate.getD d.startDate
    endDate := u.endDate.getD d.endDate
    active := u.active.getD d.active }

/-- From the spec's words (§4.1, `applicableDiscounts`, as restated by the
claim): a discount is applicable when its validity window contains `now`,
its `active` flag is true, and it is `general`, or `category`-scoped to the
product's category, or `product`-scoped including this product id, or —
only when a user with a truthy group was resolved — `userGroup`-scoped to
that group. For comparison with the code's query. -/
def specApplicable (product : Product) (productId : Nat)
    (group : Option String) (now : Int) (d : Discount) : Prop :=
  (d.startDate ≤ now ∧ now ≤ d.endDate) ∧ d.active = true ∧
    (d.type = DiscountType.general
      ∨ (d.type = DiscountType.category ∧ product.category ∈ d.categories)
      ∨ (d.type = DiscountType.product ∧ productId ∈ d.products)
      ∨ (d.type = DiscountType.userGroup ∧ group = some d.userGroup))

instance (product : Product) (productId : Nat) (group : Option String)
    (now : Int) (d : Discount) :
    Decidable (specApplicable product productId group now d) := by
  unfold specApplicable; infer_instance

/-! ### Arithmetic facts about the rounding function -/

theorem round2_mono {a b : ℚ} (h : a ≤ b) : round2 a ≤ round2 b := by
  unfold round2 jsRound
  have hf : Int.floor (a * 100 + 1 / 2) ≤ Int.floor (b * 100 + 1 / 2) := by
    apply Int.floor_le_floor
    have : a * 100 ≤ b * 100 := by nlinarith
    linarith
  have : ((Int.floor (a * 100 + 1 / 2) : ℚ)) ≤ ((Int.floor (b * 100 + 1 / 2) : ℚ)) := by
    exact_mod_cast hf
  exact div_le_div_of_nonneg_right this (by norm_num)

theorem round2_le (q : ℚ) : round2 q ≤ q + 1 / 200 := by
  unfold round2 jsRound
  have h : ((Int.floor (q * 100 + 1 / 2) : ℚ)) ≤ q * 100 + 1 / 2 := Int.floor_le _
  have h2 := div_le_div_of_nonneg_right h (show ((0:ℚ) ≤ 100) by norm_num)
  calc ((Int.floor (q * 100 + 1 / 2) : ℚ)) / 100 ≤ (q * 100 + 1 / 2) / 100 := h2
    _ = q + 1 / 200 := by ring

theorem lt_round2 (q : ℚ) : q - 1 / 200 < round2 q := by
  unfold round2 jsRound
  have h : q * 100 + 1 / 2 < (Int.floor (q * 100 + 1 / 2) : ℚ) + 1 :=
    Int.lt_floor_add_one _
  have h2 : (q * 100 + 1 / 2 - 1) / 100 < ((Int.floor (q * 100 + 1 / 2) : ℚ)) / 100 := by
    apply (div_lt_div_iff_of_pos_right (show ((0:ℚ) < 100) by norm_num)).mpr
    linarith
  calc q - 1 / 200 = (q * 100 + 1 / 2 - 1) / 100 := by ring
    _ < _ := h2

theorem round2_zero : round2 0 = 0 := by norm_num [round2, jsRound]

theorem round2_nonneg {q : ℚ} (h : 0 ≤ q) : 0 ≤ round2 q := by
  have := round2_mono h
  rwa [round2_zero] at this

/-- A value already expressible in hundredths is a fixed point of `round2`. -/
theorem round2_int_div (n : ℤ) : round2 ((n : ℚ) / 100) = (n : ℚ) / 100 := by
  unfold round2 jsRound
  have h100 : ((n : ℚ) / 100) * 100 = (n : ℚ) := by
    field_simp
  rw [h100]
  have : Int.floor ((n : ℚ) + 1 / 2) = n + Int.floor ((1 : ℚ) / 2) := Int.floor_int_add n _
  rw [this]
  norm_num

/-! ### Selection facts: sorted head and `reduce` both pick a maximum -/

theorem mem_insertDesc {a d : Discount} {l : List Discount} :
    a ∈ insertDesc d l ↔ a = d ∨ a ∈ l := by
  induction l with
  | nil => simp [insertDesc]
  | cons e es ih =>
    by_cases h : e.percentage ≤ d.percentage
    · simp [insertDesc, h]
    · simp only [insertDesc, if_neg h, List.mem_cons, ih]
      tauto

theorem mem_sortDesc {a : Discount} {l : List Discount} :
    a ∈ sortDesc l ↔ a ∈ l := by
  induction l with
  | nil => simp [sortDesc]
  | cons d ds ih => simp [sortDesc, mem_insertDesc, ih]

theorem sortDesc_eq_nil_iff {l : List Discount} : sortDesc l = [] ↔ l = [] := by
  constructor
  · intro h
    cases l with
    | nil => rfl
    | cons d ds =>
      exfalso
      have : d ∈ sortDesc (d :: ds) := mem_sortDesc.mpr (List.mem_cons_self d ds)
      rw [h] at this
      exact List.not_mem_nil d this
  · intro h; subst h; rfl

theorem sortDesc_head_max {l : List Discount} {b : Discount} {t : List Discount}
    (h : sortDesc l = b :: t) :
    b ∈ l ∧ ∀ e ∈ l, e.percentage ≤ b.percentage := by
  induction l generalizing b t with
  | nil => simp [sortDesc] at h
  | cons d ds ih =>
    rw [sortDesc] at h
    cases hs : sortDesc ds with
    | nil =>
      have hds : ds = [] := sortDesc_eq_nil_iff.mp hs
      subst hds
      simp only [sortDesc, insertDesc] at h
      cases h
      constructor
      · exact List.mem_cons_self _ _
      · intro e he
        rcases List.mem_cons.mp he with rfl | hin
        · exact le_refl _
        · simp at hin
    | cons c cs =>
      obtain ⟨hcmem, hcmax⟩ := ih hs
      rw [hs] at h
      by_cases hcd : c.percentage ≤ d.percentage
      · rw [insertDesc, if_pos hcd] at h
        cases h
        constructor
        · exact List.mem_cons_self _ _
        · intro e he
          rcases List.mem_cons.mp he with rfl | hin
          · exact le_refl _
          · exact le_trans (hcmax e hin) hcd
      · rw [insertDesc, if_neg hcd] at h
        injection h with h1 _
        subst h1
        constructor
        · exact List.mem_cons_of_mem _ hcmem
        · intro e he
          rcases List.mem_cons.mp he with rfl | hin
          · exact le_of_lt (lt_of_not_le hcd)
          · exact hcmax e hin

theorem foldlBest_spec (l : List Discount) (mx : Discount) :
    (l.foldl (fun mx e => if mx.percentage < e.percentage then e else mx) mx = mx
      ∨ l.foldl (fun mx e => if mx.percentage < e.percentage then e else mx) mx ∈ l)
    ∧ mx.percentage ≤ (l.foldl (fun mx e => if mx.percentage < e.percentage then e else mx) mx).percentage
    ∧ ∀ e ∈ l, e.percentage ≤ (l.foldl (fun mx e => if mx.percentage < e.percentage then e else mx) mx).percentage := by
  induction l generalizing mx with
  | nil => simp
  | cons a as ih =>
    simp only [List.foldl_cons]
    by_cases h : mx.percentage < a.percentage
    · rw [if_pos h]
      obtain ⟨hm, hle, hmax⟩ := ih a
      refine ⟨?_, ?_, ?_⟩
      · rcases hm with hm | hm
        · exact Or.inr (by rw [hm]; exact List.mem_cons_self _ _)
        · exact Or.inr (List.mem_cons_of_mem _ hm)
      · exact le_trans (le_of_lt h) hle
      · intro e he
        rcases List.mem_cons.mp he with rfl | hin
        · exact hle
        · exact hmax e hin
    · rw [if_neg h]
      obtain ⟨hm, hle, hmax⟩ := ih mx
      refine ⟨?_, ?_, ?_⟩
      · rcases hm with hm | hm
        · exact Or.inl hm
        · exact Or.inr (List.mem_cons_of_mem _ hm)
      · exact hle
      · intro e he
        rcases List.mem_cons.mp he with rfl | hin
        · exact le_trans (le_of_not_lt h) hle
        · exact hmax e hin

theorem reduceBest_eq_none_iff {l : List Discount} : reduceBest l = none ↔ l = [] := by
  cases l <;> simp [reduceBest]

theorem reduceBest_mem_max {l : List Discount} {b : Discount}
    (h : reduceBest l = some b) :
    b ∈ l ∧ ∀ e ∈ l, e.percentage ≤ b.percentage := by
  cases l with
  | nil => simp [reduceBest] at h
  | cons d ds =>
    rw [reduceBest] at h
    injection h with h
    obtain ⟨hm, hle, hmax⟩ := foldlBest_spec ds d
    rw [h] at hm hle hmax
    constructor
    · rcases hm with hm | hm
      · rw [← hm]; exact List.mem_cons_self _ _
      · exact List.mem_cons_of_mem _ hm
    · intro e he
      rcases List.mem_cons.mp he with rfl | hin
      · exact hle
      · exact hmax e hin

/-! ### Propositional readings of the Boolean query predicates -/

/-- The set the single-product query actually selects: like
`specApplicable`, except that the first scope branch `{products:
productId}` matches any discount whose `products` array contains the id,
with no constraint on its `type`. -/
def queryApplicable (product : Product) (productId : Nat)
    (group : Option String) (now : Int) (d : Discount) : Prop :=
  (d.startDate ≤ now ∧ now ≤ d.endDate) ∧ d.active = true ∧
    (productId ∈ d.products
      ∨ (d.type = DiscountType.category ∧ product.category ∈ d.categories)
      ∨ d.type = DiscountType.general
      ∨ (d.type = DiscountType.userGroup ∧ group = some d.userGroup))

instance (product : Product) (productId : Nat) (group : Option String)
    (now : Int) (d : Discount) :
    Decidable (queryApplicable product productId group now d) := by
  unfold queryApplicable; infer_instance

theorem singleQueryMatch_iff {product : Product} {productId : Nat}
    {group : Option String} {now : Int} {d : Discount} :
    singleQueryMatch product productId group now d = true
      ↔ queryApplicable product productId group now d := by
  unfold singleQueryMatch queryApplicable
  cases group with
  | none =>
    simp
    constructor
    · rintro ⟨⟨⟨hsc, h1⟩, h2⟩, h3⟩
      refine ⟨⟨h1, h2⟩, h3, ?_⟩
      rcases hsc with (h | h) | h
      · exact Or.inl h
      · exact Or.inr (Or.inl h)
      · exact Or.inr (Or.inr h)
    · rintro ⟨⟨h1, h2⟩, h3, hsc⟩
      refine ⟨⟨⟨?_, h1⟩, h2⟩, h3⟩
      rcases hsc with h | h | h
      · exact Or.inl (Or.inl h)
      · exact Or.inl (Or.inr h)
      · exact Or.inr h
  | some g =>
    simp
    constructor
    · rintro ⟨⟨⟨hsc, h1⟩, h2⟩, h3⟩
      refine ⟨⟨h1, h2⟩, h3, ?_⟩
      rcases hsc with ((h | h) | h) | ⟨ht, hg⟩
      · exact Or.inl h
      · exact Or.inr (Or.inl h)
      · exact Or.inr (Or.inr (Or.inl h))
      · exact Or.inr (Or.inr (Or.inr ⟨ht, hg.symm⟩))
    · rintro ⟨⟨h1, h2⟩, h3, hsc⟩
      refine ⟨⟨⟨?_, h1⟩, h2⟩, h3⟩
      rcases hsc with h | h | h | ⟨ht, hg⟩
      · exact Or.inl (Or.inl (Or.inl h))
      · exact Or.inl (Or.inl (Or.inr h))
      · exact Or.inl (Or.inr h)
      · exact Or.inr ⟨ht, hg.symm⟩

theorem bulkQueryMatch_iff {pids : List Nat} {cats : List String} {now : Int}
    {d : Discount} :
    bulkQueryMatch pids cats now d = true
      ↔ ((∃ x ∈ d.products, x ∈ pids)
          ∨ (d.type = DiscountType.category ∧ ∃ c ∈ d.categories, c ∈ cats)
          ∨ d.type = DiscountType.general)
        ∧ (d.startDate ≤ now ∧ now ≤ d.endDate) ∧ d.active = true := by
  unfold bulkQueryMatch
  simp
  constructor
  · rintro ⟨⟨⟨hsc, h1⟩, h2⟩, h3⟩
    refine ⟨?_, ⟨h1, h2⟩, h3⟩
    rcases hsc with (h | h) | h
    · exact Or.inl h
    · exact Or.inr (Or.inl h)
    · exact Or.inr (Or.inr h)
  · rintro ⟨hsc, ⟨h1, h2⟩, h3⟩
    refine ⟨⟨⟨?_, h1⟩, h2⟩, h3⟩
    rcases hsc with h | h | h
    · exact Or.inl (Or.inl h)
    · exact Or.inl (Or.inr h)
    · exact Or.inr h

theorem userGroupQueryMatch_iff {g : String} {now : Int} {d : Discount} :
    userGroupQueryMatch g now d = true
      ↔ d.type = DiscountType.userGroup ∧ d.userGroup = g
        ∧ (d.startDate ≤ now ∧ now ≤ d.endDate) ∧ d.active = true := by
  unfold userGroupQueryMatch
  simp
  tauto

theorem perProductFilter_iff {userId : Option Nat} {product : Product}
    {d : Discount} :
    perProductFilter userId product d = true
      ↔ (d.type = DiscountType.general
          ∨ (d.type = DiscountType.category ∧ product.category ∈ d.categories)
          ∨ (d.type = DiscountType.product ∧ product.pId ∈ d.products)
          ∨ (d.type = DiscountType.userGroup ∧ userId ≠ none)) := by
  unfold perProductFilter
  cases userId with
  | none => simp; tauto
  | some u => simp; tauto

theorem effectiveUserGroup_isSome {db : DB} {userId : Option Nat} {g : String}
    (h : effectiveUserGroup db userId = some g) : userId ≠ none := by
  cases userId with
  | none => simp [effectiveUserGroup] at h
  | some uid => exact Option.some_ne_none uid

/-- Membership characterization of the single-product query result: `d` is
returned exactly when it is stored and matches the query filter. -/
theorem mem_getApplicableDiscounts {db : DB} {now : Int} {pid : Nat}
    {uid : Option Nat} {p : Product} {l : List Discount}
    (hp : findProduct db.products pid = some p)
    (hl : getApplicableDiscounts db now pid uid = Except.ok l) {d : Discount} :
    d ∈ l ↔ d ∈ db.discounts
      ∧ queryApplicable p pid (effectiveUserGroup db uid) now d := by
  have hval : getApplicableDiscounts db now pid uid
      = Except.ok (sortDesc (db.discounts.filter
          (singleQueryMatch p pid (effectiveUserGroup db uid) now))) := by
    unfold getApplicableDiscounts
    rw [hp]
  rw [hval] at hl
  obtain rfl := Except.ok.inj hl
  rw [mem_sortDesc, List.mem_filter, singleQueryMatch_iff]

/-! ### Claim C4: which discounts does `getApplicableDiscounts` return? -/

/-- Shared concrete store: one product (id 1, category "shoes", price 100)
and one in-window active discount of type `userGroup` for group "gold"
whose `products` array nevertheless lists product 1. -/
def pShoes : Product := ⟨1, "shoes", 100⟩

def dGoldListed : Discount :=
  ⟨1, 50, DiscountType.userGroup, [1], [], "gold", 0, 100, true⟩

def dbGoldListed : DB := ⟨[pShoes], [], [dGoldListed]⟩

/-- C4, counterexample: with no user supplied, `getApplicableDiscounts`
returns a `userGroup`-typed discount (because the query branch `{products:
productId}` carries no type check), although per the claim's scope
description (general / category-scoped match / product-scoped match /
user-group widening) it matches none of the admissible scopes. -/
theorem C4_counterexample :
    getApplicableDiscounts dbGoldListed 5 1 none = Except.ok [dGoldListed]
      ∧ ¬ specApplicable pShoes 1 none 5 dGoldListed := by
  constructor
  · norm_num [getApplicableDiscounts, dbGoldListed, pShoes, dGoldListed,
      findProduct, List.find?, effectiveUserGroup, singleQueryMatch,
      List.filter, sortDesc, insertDesc]
  · norm_num [specApplicable, pShoes, dGoldListed]
    decide

/-- C4 (amended): `getApplicableDiscounts` returns exactly the stored
discounts whose validity window contains `now` and whose `active` flag is
true and which either list the product id in their `products` array
(regardless of their `type` — this is where the claim's "product-scoped"
wording had to be weakened), or are `category`-scoped to the product's
category, or are `general`, or (when a user with a truthy group was
resolved) are `userGroup`-scoped to that group; in particular every
returned discount has `startDate ≤ now`, so a not-yet-started discount is
never returned. -/
theorem C4_applicable_set_amended (db : DB) (now : Int) (pid : Nat)
    (uid : Option Nat) (p : Product) (l : List Discount)
    (hp : findProduct db.products pid = some p)
    (hl : getApplicableDiscounts db now pid uid = Except.ok l) :
    (∀ d, d ∈ l ↔ d ∈ db.discounts
        ∧ queryApplicable p pid (effectiveUserGroup db uid) now d)
    ∧ ∀ d ∈ l, d.startDate ≤ now := by
  refine ⟨fun d => mem_getApplicableDiscounts hp hl, fun d hd => ?_⟩
  exact ((mem_getApplicableDiscounts hp hl).mp hd).2.1.1

/-- C4, witness: the amended characterization evaluated on the concrete
store `dbGoldListed`. -/
theorem C4_witness :
    dGoldListed ∈ [dGoldListed] ↔ dGoldListed ∈ dbGoldListed.discounts
      ∧ queryApplicable pShoes 1 (effectiveUserGroup dbGoldListed none) 5 dGoldListed :=
  (C4_applicable_set_amended dbGoldListed 5 1 none pShoes [dGoldListed]
    (by norm_num [findProduct, dbGoldListed, pShoes, List.find?])
    (by norm_num [getApplicableDiscounts, dbGoldListed, pShoes, dGoldListed,
      findProduct, List.find?, effectiveUserGroup, singleQueryMatch,
      List.filter, sortDesc, insertDesc])).1 dGoldListed

/-! ### Claim C8: error behavior of the single-product operations -/

/-- C8: `getApplicableDiscounts` and `calculateProductDiscount` fail with
the single error `"Product not found"` exactly when the product id does not
resolve; when it does resolve, both succeed (no other error kind exists in
these paths, and the functions are pure reads). -/
theorem C8_notfound_iff (db : DB) (now : Int) (pid : Nat) (uid : Option Nat) :
    (findProduct db.products pid = none →
      getApplicableDiscounts db now pid uid = Except.error "Product not found"
      ∧ calculateProductDiscount db now pid uid = Except.error "Product not found")
    ∧ ∀ p, findProduct db.products pid = some p →
      (∃ l, getApplicableDiscounts db now pid uid = Except.ok l)
      ∧ ∃ r, calculateProductDiscount db now pid uid = Except.ok r := by
  constructor
  · intro hnone
    constructor
    · unfold getApplicableDiscounts
      rw [hnone]
    · unfold calculateProductDiscount
      rw [hnone]
  · intro p hp
    have hga : getApplicableDiscounts db now pid uid
        = Except.ok (sortDesc (db.discounts.filter
            (singleQueryMatch p pid (effectiveUserGroup db uid) now))) := by
      unfold getApplicableDiscounts
      rw [hp]
    refine ⟨⟨_, hga⟩, ?_⟩
    have hbd : calculateBestDiscount db now pid uid
        = Except.ok (sortDesc (db.discounts.filter
            (singleQueryMatch p pid (effectiveUserGroup db uid) now))).head? := by
      unfold calculateBestDiscount
      rw [hga]
      rfl
    unfold calculateProductDiscount
    rw [hp, hbd]
    cases (sortDesc (db.discounts.filter
        (singleQueryMatch p pid (effectiveUserGroup db uid) now))).head? with
    | none => exact ⟨_, rfl⟩
    | some b => exact ⟨_, rfl⟩

/-- Empty store used to exercise the missing-product path. -/
def dbEmpty : DB := ⟨[], [], []⟩

/-- C8, witness: on an empty store, both single-product operations fail
with exactly `"Product not found"`. -/
theorem C8_witness :
    getApplicableDiscounts dbEmpty 0 1 none = Except.error "Product not found"
    ∧ calculateProductDiscount dbEmpty 0 1 none = Except.error "Product not found" :=
  (C8_notfound_iff dbEmpty 0 1 none).1 rfl

/-! ### Claim C6: the per-product filtering pass of the bulk path -/

/-- C6: in the bulk path's per-product pass, a pool discount survives the
filter for a given product exactly when it is `general`, or
`category`-typed with the product's category listed, or `product`-typed
with the product's id listed, or `userGroup`-typed with a user id supplied
— the last test does not consult the discount's group label at all. -/
theorem C6_per_product_pass (pool : List Discount) (userId : Option Nat)
    (product : Product) (d : Discount) :
    d ∈ pool.filter (perProductFilter userId product)
      ↔ d ∈ pool
        ∧ (d.type = DiscountType.general
          ∨ (d.type = DiscountType.category ∧ product.category ∈ d.categories)
          ∨ (d.type = DiscountType.product ∧ product.pId ∈ d.products)
          ∨ (d.type = DiscountType.userGroup ∧ userId ≠ none)) := by
  rw [List.mem_filter, perProductFilter_iff]

/-- C6, witness: the pass evaluated on a concrete pool: with no user id, a
`userGroup`-typed discount is dropped even though it lists the product. -/
theorem C6_witness :
    dGoldListed ∈ [dGoldListed].filter (perProductFilter none pShoes)
      ↔ dGoldListed ∈ [dGoldListed]
        ∧ (dGoldListed.type = DiscountType.general
          ∨ (dGoldListed.type = DiscountType.category
              ∧ pShoes.category ∈ dGoldListed.categories)
          ∨ (dGoldListed.type = DiscountType.product
              ∧ pShoes.pId ∈ dGoldListed.products)
          ∨ (dGoldListed.type = DiscountType.userGroup ∧ (none : Option Nat) ≠ none)) :=
  C6_per_product_pass [dGoldListed] none pShoes dGoldListed

/-! ### Claim C10: the bulk path maps inputs one-to-one, mutating nothing -/

/-- C10: `applyBulkDiscounts` returns one result per input product, in
order; each result embeds the corresponding input product record unchanged
(the `{...product}` spread) and only adds derived pricing fields; being a
pure function of its inputs, it mutates nothing. -/
theorem C10_bulk_frame (db : DB) (now : Int) (products : List Product)
    (userId : Option Nat) :
    (applyBulkDiscounts db now products userId).map PricedProduct.base = products
    ∧ (applyBulkDiscounts db now products userId).length = products.length := by
  have hbase : (applyBulkDiscounts db now products userId).map PricedProduct.base
      = products := by
    unfold applyBulkDiscounts
    rw [List.map_map]
    conv_rhs => rw [← List.map_id products]
    apply List.map_congr_left
    intro a _
    simp only [Function.comp_apply, id_eq]
    cases reduceBest _ <;> rfl
  refine ⟨hbase, ?_⟩
  conv_rhs => rw [← hbase]
  rw [List.length_map]

/-! ### Claim C2: when is the `active` flag recomputed? -/

/-- A discount whose window `[0, 10]` has closed by time `20`, stored with
`active = true`. -/
def dStale : Discount := ⟨2, 10, DiscountType.general, [], [], "", 0, 10, true⟩

/-- C2, counterexample: persisting through the admin update surface
(`updateDiscount`, i.e. `findByIdAndUpdate`) at time `20` — here changing
only the percentage — leaves `active = true` although the validity window
does not contain the persist time: the pre-save recomputation does not run
on query-level updates. -/
theorem C2_counterexample :
    (updateDiscount dStale { percentage := some 15 }).active = true
    ∧ ¬((updateDiscount dStale { percentage := some 15 }).startDate ≤ (20 : Int)
        ∧ (20 : Int) ≤ (updateDiscount dStale { percentage := some 15 }).endDate) := by
  constructor
  · rfl
  · intro h
    have h2 := h.2
    norm_num [updateDiscount, dStale] at h2

/-- C2 (amended): the recomputation happens only on the document-save path:
`createDiscount` (which runs the `pre('save')` hook) stores `active = true`
exactly when `startDate ≤ now ≤ endDate` — overriding any administratively
supplied value, disabled or not — while `updateDiscount`
(`findByIdAndUpdate`) persists the raw update without recomputation, so
after an update `active` is just the updated (or prior) stored value. -/
theorem C2_active_recompute_amended (now : Int) (d : Discount)
    (u : DiscountUpdate) :
    ((createDiscount now d).active = true ↔ d.startDate ≤ now ∧ now ≤ d.endDate)
    ∧ (updateDiscount d u).active = u.active.getD d.active := by
  refine ⟨?_, rfl⟩
  unfold createDiscount preSave
  simp

/-- An administratively disabled (`active = false`) discount whose window
`[0, 10]` contains time `5`. -/
def dDisabled : Discount := ⟨3, 10, DiscountType.general, [], [], "", 0, 10, false⟩

/-- C2, witness: saving the disabled-but-in-window discount at time `5`
flips `active` back to `true`. -/
theorem C2_witness : (createDiscount 5 dDisabled).active = true :=
  (C2_active_recompute_amended 5 dDisabled
    ⟨none, none, none, none, none, none, none, none⟩).1.mpr (by decide)

/-! ### The shape of a single-product pricing result -/

/-- Characterization of a successful `calculateProductDiscount` result:
either no stored discount matches the query and the no-discount shape is
returned, or the result is priced from a best discount `b` — a stored,
query-matching discount of maximal percentage among the matching ones. -/
theorem calculateProductDiscount_ok_shape {db : DB} {now : Int} {pid : Nat}
    {uid : Option Nat} {p : Product} {r : PricingResult}
    (hp : findProduct db.products pid = some p)
    (hr : calculateProductDiscount db now pid uid = Except.ok r) :
    (r = ⟨p.price, p.price, none, none, false, none, none⟩
      ∧ ∀ d ∈ db.discounts,
          ¬ queryApplicable p pid (effectiveUserGroup db uid) now d)
    ∨ (∃ b, b ∈ db.discounts
        ∧ queryApplicable p pid (effectiveUserGroup db uid) now b
        ∧ (∀ e ∈ db.discounts,
            queryApplicable p pid (effectiveUserGroup db uid) now e →
              e.percentage ≤ b.percentage)
        ∧ r = ⟨p.price, round2 (p.price * ((100 - b.percentage) / 100)),
            some b.percentage, some b, true,
            some (toFixed2 (p.price
              - round2 (p.price * ((100 - b.percentage) / 100)))),
            some b.type⟩) := by
  have hga : getApplicableDiscounts db now pid uid
      = Except.ok (sortDesc (db.discounts.filter
          (singleQueryMatch p pid (effectiveUserGroup db uid) now))) := by
    unfold getApplicableDiscounts
    rw [hp]
  have hbd : calculateBestDiscount db now pid uid
      = Except.ok (sortDesc (db.discounts.filter
          (singleQueryMatch p pid (effectiveUserGroup db uid) now))).head? := by
    unfold calculateBestDiscount
    rw [hga]
    rfl
  unfold calculateProductDiscount at hr
  rw [hp, hbd] at hr
  cases hsort : sortDesc (db.discounts.filter
      (singleQueryMatch p pid (effectiveUserGroup db uid) now)) with
  | nil =>
    left
    have hfil : db.discounts.filter
        (singleQueryMatch p pid (effectiveUserGroup db uid) now) = [] :=
      sortDesc_eq_nil_iff.mp hsort
    constructor
    · rw [hsort] at hr
      simp only [List.head?_nil] at hr
      exact (Except.ok.inj hr).symm
    · intro d hd hq
      have : d ∈ db.discounts.filter
          (singleQueryMatch p pid (effectiveUserGroup db uid) now) :=
        List.mem_filter.mpr ⟨hd, singleQueryMatch_iff.mpr hq⟩
      rw [hfil] at this
      exact List.not_mem_nil d this
  | cons b t =>
    right
    obtain ⟨hbmem, hbmax⟩ := sortDesc_head_max hsort
    have hbdb := (List.mem_filter.mp hbmem).1
    have hbq := singleQueryMatch_iff.mp (List.mem_filter.mp hbmem).2
    refine ⟨b, hbdb, hbq, ?_, ?_⟩
    · intro e he hq
      exact hbmax e (List.mem_filter.mpr ⟨he, singleQueryMatch_iff.mpr hq⟩)
    · rw [hsort] at hr
      simp only [List.head?_cons] at hr
      exact (Except.ok.inj hr).symm

theorem toFixed2_of_nonneg {q : ℚ} (h : 0 ≤ q) : toFixed2 q = round2 q := by
  unfold toFixed2
  rw [if_neg (not_lt.mpr h)]

theorem toFixed2_zero : toFixed2 0 = 0 := by
  rw [toFixed2_of_nonneg (le_refl 0), round2_zero]

/-! ### Claim C9: zero-percentage discounts and the no-discount shape -/

/-- C9 (amended): `hasDiscount` is true exactly when some stored discount
matches the query (a percentage of 0 is never special-cased); with no
match the no-discount shape `{originalPrice, discountedPrice =
originalPrice, hasDiscount = false}` is returned; and when the best
discount has percentage 0 the result has `hasDiscount = true`,
`discountedPrice = round2(originalPrice)` and `savedAmount =
toFixed2(originalPrice - round2(originalPrice))`; whenever the price is
expressible in hundredths these reduce to the claimed `discountedPrice =
originalPrice` and `savedAmount = 0`, but not for finer-grained prices
(the weakening the counterexample forces). -/
theorem C9_zero_percentage_amended (db : DB) (now : Int) (pid : Nat)
    (uid : Option Nat) (p : Product) (r : PricingResult)
    (hp : findProduct db.products pid = some p)
    (hr : calculateProductDiscount db now pid uid = Except.ok r) :
    (r.hasDiscount = true
      ↔ ∃ d ∈ db.discounts,
          queryApplicable p pid (effectiveUserGroup db uid) now d)
    ∧ ((∀ d ∈ db.discounts,
          ¬ queryApplicable p pid (effectiveUserGroup db uid) now d) →
        r = ⟨p.price, p.price, none, none, false, none, none⟩)
    ∧ ∀ b, r.discount = some b → b.percentage = 0 →
        r.hasDiscount = true
        ∧ r.discountedPrice = round2 p.price
        ∧ r.savedAmount = some (toFixed2 (p.price - round2 p.price))
        ∧ ∀ n : ℤ, p.price = (n : ℚ) / 100 →
            r.discountedPrice = p.price ∧ r.savedAmount = some 0 := by
  rcases calculateProductDiscount_ok_shape hp hr with ⟨hre, hnone⟩
    | ⟨b, hbdb, hbq, hbmax, hre⟩
  · subst hre
    refine ⟨?_, fun _ => rfl, ?_⟩
    · constructor
      · intro h
        exact absurd h (by simp)
      · rintro ⟨d, hd, hq⟩
        exact absurd hq (hnone d hd)
    · intro b hb
      simp at hb
  · subst hre
    refine ⟨?_, ?_, ?_⟩
    · exact ⟨fun _ => ⟨b, hbdb, hbq⟩, fun _ => rfl⟩
    · intro hnone
      exact absurd hbq (hnone b hbdb)
    · intro b' hb' h0
      have hbb : b' = b := by
        simpa using hb'.symm
      subst hbb
      have hmul : b'.percentage = 0 →
          round2 (p.price * ((100 - b'.percentage) / 100)) = round2 p.price := by
        intro h
        rw [h]
        norm_num
      refine ⟨rfl, hmul h0, ?_, ?_⟩
      · show some (toFixed2 (p.price
            - round2 (p.price * ((100 - b'.percentage) / 100))))
          = some (toFixed2 (p.price - round2 p.price))
        rw [hmul h0]
      · intro n hn
        have hfix : round2 p.price = p.price := by
          rw [hn, round2_int_div]
        constructor
        · show round2 (p.price * ((100 - b'.percentage) / 100)) = p.price
          rw [hmul h0, hfix]
        · show some (toFixed2 (p.price
              - round2 (p.price * ((100 - b'.percentage) / 100)))) = some 0
          rw [hmul h0, hfix, sub_self, toFixed2_zero]

/-- A product whose price `1.006` is not expressible in hundredths. -/
def pOddPrice : Product := ⟨2, "shoes", 503 / 500⟩

/-- An active in-window zero-percentage general discount. -/
def dZeroPct : Discount := ⟨4, 0, DiscountType.general, [], [], "", 0, 100, true⟩

def dbZeroPct : DB := ⟨[pOddPrice], [], [dZeroPct]⟩

/-- C9, counterexample: with the zero-percentage general discount applied
to the product priced `1.006`, the code returns `hasDiscount = true` but
`discountedPrice = 1.01 ≠ 1.006 = originalPrice` (`Math.round(1.006 * 1 *
100)/100 = 1.01`), refuting the claim's "discountedPrice equals
originalPrice" at percentage 0. -/
theorem C9_counterexample :
    calculateProductDiscount dbZeroPct 5 2 none
      = Except.ok ⟨503 / 500, 101 / 100, some 0, some dZeroPct, true, some 0,
          some DiscountType.general⟩
    ∧ (101 : ℚ) / 100 ≠ 503 / 500 := by
  constructor
  · norm_num [calculateProductDiscount, calculateBestDiscount,
      getApplicableDiscounts, dbZeroPct, pOddPrice, dZeroPct, findProduct,
      List.find?, effectiveUserGroup, singleQueryMatch, List.filter,
      sortDesc, insertDesc, round2, jsRound, toFixed2, Except.map, List.head?]
  · norm_num

/-- C9, witness: the amended characterization evaluated on the concrete
zero-percentage store. -/
theorem C9_witness :
    ((⟨503 / 500, 101 / 100, some 0, some dZeroPct, true, some 0,
        some DiscountType.general⟩ : PricingResult).hasDiscount = true
      ↔ ∃ d ∈ dbZeroPct.discounts,
          queryApplicable pOddPrice 2 (effectiveUserGroup dbZeroPct none) 5 d) :=
  (C9_zero_percentage_amended dbZeroPct 5 2 none pOddPrice _
    (by norm_num [findProduct, dbZeroPct, pOddPrice, List.find?])
    (by norm_num [calculateProductDiscount, calculateBestDiscount,
      getApplicableDiscounts, dbZeroPct, pOddPrice, dZeroPct, findProduct,
      List.find?, effectiveUserGroup, singleQueryMatch, List.filter,
      sortDesc, insertDesc, round2, jsRound, toFixed2, Except.map, List.head?])).1

/-! ### The shape of a bulk pricing result element -/

/-- Characterization of one element of `applyBulkDiscounts`: it embeds some
input product, and either carries the no-discount shape or is priced from a
stored discount that passed the per-product filter for that product. -/
theorem applyBulkDiscounts_mem_shape {db : DB} {now : Int}
    {products : List Product} {userId : Option Nat} {pp : PricedProduct}
    (h : pp ∈ applyBulkDiscounts db now products userId) :
    pp.base ∈ products
    ∧ ((pp.hasDiscount = false ∧ pp.discount = none
        ∧ pp.originalPrice = pp.base.price
        ∧ pp.discountedPrice = pp.base.price
        ∧ pp.savedAmount = none)
      ∨ ∃ b, b ∈ db.discounts
          ∧ perProductFilter userId pp.base b = true
          ∧ pp.discount = some b ∧ pp.hasDiscount = true
          ∧ pp.originalPrice = pp.base.price
          ∧ pp.discountedPrice
              = round2 (pp.base.price * ((100 - b.percentage) / 100))
          ∧ pp.savedAmount
              = some (toFixed2 (pp.base.price
                  - round2 (pp.base.price * ((100 - b.percentage) / 100))))
          ∧ pp.discountPercentage = some b.percentage
          ∧ pp.discountType = some b.type) := by
  unfold applyBulkDiscounts at h
  simp only [List.mem_map] at h
  obtain ⟨p, hpmem, hfp⟩ := h
  cases hr : reduceBest (((db.discounts.filter
      (bulkQueryMatch (products.map (fun p => p.pId))
        ((products.map (fun p => p.category)).dedup) now))
      ++ (match effectiveUserGroup db userId with
          | some g => db.discounts.filter (userGroupQueryMatch g now)
          | none => [])).filter (perProductFilter userId p)) with
  | none =>
    rw [hr] at hfp
    simp only at hfp
    subst hfp
    exact ⟨hpmem, Or.inl ⟨rfl, rfl, rfl, rfl, rfl⟩⟩
  | some b =>
    rw [hr] at hfp
    simp only at hfp
    subst hfp
    obtain ⟨hbmem, hbmax⟩ := reduceBest_mem_max hr
    have hfil := List.mem_filter.mp hbmem
    have hbdb : b ∈ db.discounts := by
      rcases List.mem_append.mp hfil.1 with hleft | hright
      · exact (List.mem_filter.mp hleft).1
      · cases hg : effectiveUserGroup db userId with
        | none =>
          rw [hg] at hright
          exact absurd hright (List.not_mem_nil b)
        | some g =>
          rw [hg] at hright
          exact (List.mem_filter.mp hright).1
    exact ⟨hpmem, Or.inr ⟨b, hbdb, hfil.2, rfl, rfl, rfl, rfl, rfl, rfl, rfl⟩⟩

theorem mult_bounds {perc : ℚ} (h0 : 0 ≤ perc) (h1 : perc ≤ 100) :
    0 ≤ (100 - perc) / 100 ∧ (100 - perc) / 100 ≤ 1 := by
  constructor
  · apply div_nonneg
    · linarith
    · norm_num
  · rw [div_le_one (by norm_num)]
    linarith

/-! ### Claim C3: how `savedAmount` is computed -/

/-- A product priced `0.045` and a 10% general discount: the inputs on
which single and double rounding of `savedAmount` differ. -/
def pMidPrice : Product := ⟨3, "shoes", 9 / 200⟩

def dTenPct : Discount := ⟨5, 10, DiscountType.general, [], [], "", 0, 100, true⟩

def dbTenPct : DB := ⟨[pMidPrice], [], [dTenPct]⟩

/-- A product priced `0.005`, below half a cent. -/
def pHalfCent : Product := ⟨4, "shoes", 1 / 200⟩

def dZeroGeneral : Discount := ⟨6, 0, DiscountType.general, [], [], "", 0, 100, true⟩

def dbHalfCent : DB := ⟨[pHalfCent], [], [dZeroGeneral]⟩

/-- C3 (amended): in both pricing paths, `savedAmount` equals
`toFixed2(originalPrice - discountedPrice)` — the difference against the
*already rounded* `discountedPrice`, rounded a second time with `toFixed`
semantics (`parseFloat((price - discountedPrice).toFixed(2))`), not a
single rounding of the unrounded difference as the claim stated; and
`savedAmount ≥ 0` holds whenever the price is expressible in hundredths
(under the schema bounds price ≥ 0, percentage ∈ [0,100]) — for
finer-grained prices it can be negative, e.g. `-0.01` at price `0.005`
with a 0% discount. -/
theorem C3_saved_amount_amended :
    (∀ (db : DB) (now : Int) (pid : Nat) (uid : Option Nat) (p : Product)
        (r : PricingResult) (b : Discount),
      findProduct db.products pid = some p →
      calculateProductDiscount db now pid uid = Except.ok r →
      r.discount = some b →
      r.savedAmount = some (toFixed2 (r.originalPrice - r.discountedPrice))
      ∧ (0 ≤ p.price → 0 ≤ b.percentage → b.percentage ≤ 100 →
          ∀ n : ℤ, p.price = (n : ℚ) / 100 →
            ∀ q, r.savedAmount = some q → 0 ≤ q))
    ∧ ∀ (db : DB) (now : Int) (products : List Product) (userId : Option Nat)
        (pp : PricedProduct) (b : Discount),
      pp ∈ applyBulkDiscounts db now products userId →
      pp.discount = some b →
      pp.savedAmount = some (toFixed2 (pp.originalPrice - pp.discountedPrice))
      ∧ (0 ≤ pp.base.price → 0 ≤ b.percentage → b.percentage ≤ 100 →
          ∀ n : ℤ, pp.base.price = (n : ℚ) / 100 →
            ∀ q, pp.savedAmount = some q → 0 ≤ q) := by
  have key : ∀ (x perc : ℚ), 0 ≤ x → 0 ≤ perc → perc ≤ 100 →
      (∀ n : ℤ, x = (n : ℚ) / 100 →
        0 ≤ toFixed2 (x - round2 (x * ((100 - perc) / 100)))) := by
    intro x perc hx h0 h1 n hn
    obtain ⟨hm0, hm1⟩ := mult_bounds h0 h1
    have hle : x * ((100 - perc) / 100) ≤ x := by nlinarith
    have hfix : round2 x = x := by
      rw [hn, round2_int_div]
    have hdiff : 0 ≤ x - round2 (x * ((100 - perc) / 100)) := by
      have := round2_mono hle
      rw [hfix] at this
      linarith
    rw [toFixed2_of_nonneg hdiff]
    exact round2_nonneg hdiff
  constructor
  · intro db now pid uid p r b hp hr hb
    rcases calculateProductDiscount_ok_shape hp hr with ⟨hre, _⟩
      | ⟨b', _, _, _, hre⟩
    · rw [hre] at hb
      simp at hb
    · subst hre
      have hbb : b' = b := by simpa using hb
      subst hbb
      refine ⟨rfl, ?_⟩
      intro hx h0 h1 n hn q hq
      have hnn := key p.price b'.percentage hx h0 h1 n hn
      simp only [Option.some_inj] at hq
      rw [hq] at hnn
      exact hnn
  · intro db now products userId pp b hmem hb
    rcases (applyBulkDiscounts_mem_shape hmem).2 with ⟨_, hdn, _⟩
      | ⟨b', _, _, hdisc, _, horig, hdp, hsa, _⟩
    · rw [hdn] at hb
      simp at hb
    · have hbb : b' = b := by
        rw [hb] at hdisc
        simpa using hdisc.symm
      subst hbb
      refine ⟨?_, ?_⟩
      · rw [hsa, horig, hdp]
      · intro hx h0 h1 n hn q hq
        have hnn := key pp.base.price b'.percentage hx h0 h1 n hn
        rw [hsa] at hq
        simp only [Option.some_inj] at hq
        rw [hq] at hnn
        exact hnn

/-- C3, counterexample: for price `0.045` and percentage 10 the code stores
`savedAmount = 0.01` (`(0.045 - 0.04).toFixed(2)`), while rounding the
difference `0.045 - 0.0405` once from the unrounded inputs gives `0.00` —
so `savedAmount` is *not* obtained by a single rounding from unrounded
inputs; and for price `0.005` with a 0% discount the code stores
`savedAmount = parseFloat((0.005 - 0.01).toFixed(2)) = -0.01`, refuting
`savedAmount ≥ 0`. -/
theorem C3_counterexample :
    calculateProductDiscount dbTenPct 5 3 none
      = Except.ok ⟨9 / 200, 1 / 25, some 10, some dTenPct, true,
          some (1 / 100), some DiscountType.general⟩
    ∧ round2 (9 / 200 - 9 / 200 * ((100 - 10) / 100)) = 0
    ∧ (1 : ℚ) / 100 ≠ 0
    ∧ calculateProductDiscount dbHalfCent 5 4 none
      = Except.ok ⟨1 / 200, 1 / 100, some 0, some dZeroGeneral, true,
          some (-(1 / 100)), some DiscountType.general⟩
    ∧ ¬(0 ≤ -((1 : ℚ) / 100)) := by
  refine ⟨?_, ?_, by norm_num, ?_, by norm_num⟩
  · norm_num [calculateProductDiscount, calculateBestDiscount,
      getApplicableDiscounts, dbTenPct, pMidPrice, dTenPct, findProduct,
      List.find?, effectiveUserGroup, singleQueryMatch, List.filter,
      sortDesc, insertDesc, round2, jsRound, toFixed2, Except.map, List.head?]
  · norm_num [round2, jsRound]
  · norm_num [calculateProductDiscount, calculateBestDiscount,
      getApplicableDiscounts, dbHalfCent, pHalfCent, dZeroGeneral, findProduct,
      List.find?, effectiveUserGroup, singleQueryMatch, List.filter,
      sortDesc, insertDesc, round2, jsRound, toFixed2, Except.map, List.head?]

/-- C3, witness: the amended computation rule evaluated on the concrete
store (`savedAmount = toFixed2(0.045 - 0.04) = 0.01`). -/
theorem C3_witness :
    (⟨9 / 200, 1 / 25, some 10, some dTenPct, true, some (1 / 100),
        some DiscountType.general⟩ : PricingResult).savedAmount
      = some (toFixed2 ((⟨9 / 200, 1 / 25, some 10, some dTenPct, true,
          some (1 / 100), some DiscountType.general⟩ : PricingResult).originalPrice
        - (⟨9 / 200, 1 / 25, some 10, some dTenPct, true, some (1 / 100),
            some DiscountType.general⟩ : PricingResult).discountedPrice)) :=
  (C3_saved_amount_amended.1 dbTenPct 5 3 none pMidPrice _ dTenPct
    (by norm_num [findProduct, dbTenPct, pMidPrice, List.find?])
    (by norm_num [calculateProductDiscount, calculateBestDiscount,
      getApplicableDiscounts, dbTenPct, pMidPrice, dTenPct, findProduct,
      List.find?, effectiveUserGroup, singleQueryMatch, List.filter,
      sortDesc, insertDesc, round2, jsRound, toFixed2, Except.map, List.head?])
    rfl).1

/-! ### Claim C7: the discounted price formula and its bounds -/

/-- C7 (amended): in both paths, when a best discount is selected the
returned price is `discountedPrice = round2(x * (100 - p) / 100)` (halves
rounded upward, which on the engine's nonnegative inputs coincides with
round-half-away-from-zero), and under the schema bounds
`0 ≤ discountedPrice ≤ round2(x)`; the claimed upper bound `x` itself only
holds when the price `x` is expressible in hundredths (the weakening the
counterexample forces). -/
theorem C7_discounted_price_amended :
    (∀ (db : DB) (now : Int) (pid : Nat) (uid : Option Nat) (p : Product)
        (r : PricingResult) (b : Discount),
      findProduct db.products pid = some p →
      calculateProductDiscount db now pid uid = Except.ok r →
      r.discount = some b →
      r.discountedPrice = round2 (p.price * ((100 - b.percentage) / 100))
      ∧ (0 ≤ p.price → 0 ≤ b.percentage → b.percentage ≤ 100 →
          0 ≤ r.discountedPrice
          ∧ r.discountedPrice ≤ round2 p.price
          ∧ ∀ n : ℤ, p.price = (n : ℚ) / 100 → r.discountedPrice ≤ p.price))
    ∧ ∀ (db : DB) (now : Int) (products : List Product) (userId : Option Nat)
        (pp : PricedProduct) (b : Discount),
      pp ∈ applyBulkDiscounts db now products userId →
      pp.discount = some b →
      pp.discountedPrice = round2 (pp.base.price * ((100 - b.percentage) / 100))
      ∧ (0 ≤ pp.base.price → 0 ≤ b.percentage → b.percentage ≤ 100 →
          0 ≤ pp.discountedPrice
          ∧ pp.discountedPrice ≤ round2 pp.base.price
          ∧ ∀ n : ℤ, pp.base.price = (n : ℚ) / 100
              → pp.discountedPrice ≤ pp.base.price) := by
  have key : ∀ (x perc : ℚ), 0 ≤ x → 0 ≤ perc → perc ≤ 100 →
      0 ≤ round2 (x * ((100 - perc) / 100))
      ∧ round2 (x * ((100 - perc) / 100)) ≤ round2 x
      ∧ ∀ n : ℤ, x = (n : ℚ) / 100 → round2 (x * ((100 - perc) / 100)) ≤ x := by
    intro x perc hx h0 h1
    obtain ⟨hm0, hm1⟩ := mult_bounds h0 h1
    have hle : x * ((100 - perc) / 100) ≤ x := by nlinarith
    have hmono := round2_mono hle
    refine ⟨round2_nonneg (by positivity), hmono, ?_⟩
    intro n hn
    calc round2 (x * ((100 - perc) / 100)) ≤ round2 x := hmono
      _ = x := by rw [hn, round2_int_div]
  constructor
  · intro db now pid uid p r b hp hr hb
    rcases calculateProductDiscount_ok_shape hp hr with ⟨hre, _⟩
      | ⟨b', _, _, _, hre⟩
    · rw [hre] at hb
      simp at hb
    · subst hre
      have hbb : b' = b := by simpa using hb
      subst hbb
      exact ⟨rfl, fun hx h0 h1 => key p.price b'.percentage hx h0 h1⟩
  · intro db now products userId pp b hmem hb
    rcases (applyBulkDiscounts_mem_shape hmem).2 with ⟨_, hdn, _⟩
      | ⟨b', _, _, hdisc, _, _, hdp, _, _⟩
    · rw [hdn] at hb
      simp at hb
    · have hbb : b' = b := by
        rw [hb] at hdisc
        simpa using hdisc.symm
      subst hbb
      refine ⟨hdp, fun hx h0 h1 => ?_⟩
      rw [hdp]
      exact key pp.base.price b'.percentage hx h0 h1

/-- C7, counterexample: for price `x = 0.005` and percentage 0 the code
returns `discountedPrice = Math.round(0.005 * 1 * 100)/100 = 0.01 > x`
(and `savedAmount = parseFloat((0.005 - 0.01).toFixed(2)) = -0.01`),
refuting the claimed bound `discountedPrice ≤ x`. -/
theorem C7_counterexample :
    calculateProductDiscount dbHalfCent 5 4 none
      = Except.ok ⟨1 / 200, 1 / 100, some 0, some dZeroGeneral, true,
          some (-(1 / 100)), some DiscountType.general⟩
    ∧ ¬((1 : ℚ) / 100 ≤ 1 / 200) := by
  refine ⟨?_, by norm_num⟩
  norm_num [calculateProductDiscount, calculateBestDiscount,
    getApplicableDiscounts, dbHalfCent, pHalfCent, dZeroGeneral, findProduct,
    List.find?, effectiveUserGroup, singleQueryMatch, List.filter,
    sortDesc, insertDesc, round2, jsRound, toFixed2, Except.map, List.head?]

/-- C7, witness: the amended formula evaluated on the concrete store
(`discountedPrice = round2(0.005 * ((100 - 0)/100))`). -/
theorem C7_witness :
    (⟨1 / 200, 1 / 100, some 0, some dZeroGeneral, true, some (-(1 / 100)),
        some DiscountType.general⟩ : PricingResult).discountedPrice
      = round2 (pHalfCent.price * ((100 - dZeroGeneral.percentage) / 100)) :=
  (C7_discounted_price_amended.1 dbHalfCent 5 4 none pHalfCent _ dZeroGeneral
    (by norm_num [findProduct, dbHalfCent, pHalfCent, List.find?])
    (by norm_num [calculateProductDiscount, calculateBestDiscount,
      getApplicableDiscounts, dbHalfCent, pHalfCent, dZeroGeneral, findProduct,
      List.find?, effectiveUserGroup, singleQueryMatch, List.filter,
      sortDesc, insertDesc, round2, jsRound, toFixed2, Except.map, List.head?])
    rfl).1

/-! ### Claim C5: scope correctness of the selected best discount -/

/-- C5 (amended): in the bulk path, unconditionally, a selected
`category`-typed best discount always lists the product's category, and no
`userGroup`-typed discount is selected without a user id. In the single
path the same holds **provided** no discount of a type other than
`product` lists the product's id in its `products` array — without that
proviso the single path's untyped `{products: productId}` query branch can
select a `category`-typed discount for a product outside its categories
(and a `userGroup`-typed one with no user supplied). -/
theorem C5_scope_correctness_amended :
    (∀ (db : DB) (now : Int) (products : List Product) (userId : Option Nat)
        (pp : PricedProduct) (b : Discount),
      pp ∈ applyBulkDiscounts db now products userId →
      pp.discount = some b →
      (b.type = DiscountType.category → pp.base.category ∈ b.categories)
      ∧ (userId = none → b.type ≠ DiscountType.userGroup))
    ∧ ∀ (db : DB) (now : Int) (pid : Nat) (uid : Option Nat) (p : Product)
        (r : PricingResult) (b : Discount),
      findProduct db.products pid = some p →
      (∀ d ∈ db.discounts, pid ∈ d.products → d.type = DiscountType.product) →
      calculateProductDiscount db now pid uid = Except.ok r →
      r.discount = some b →
      (b.type = DiscountType.category → p.category ∈ b.categories)
      ∧ (uid = none → b.type ≠ DiscountType.userGroup) := by
  constructor
  · intro db now products userId pp b hmem hb
    rcases (applyBulkDiscounts_mem_shape hmem).2 with ⟨_, hdn, _⟩
      | ⟨b', _, hfil, hdisc, _⟩
    · rw [hdn] at hb
      simp at hb
    · have hbb : b' = b := by
        rw [hb] at hdisc
        simpa using hdisc.symm
      subst hbb
      have hsc := perProductFilter_iff.mp hfil
      constructor
      · intro hcat
        rcases hsc with h | ⟨_, h⟩ | ⟨h, _⟩ | ⟨h, _⟩
        · rw [hcat] at h
          simp at h
        · exact h
        · rw [hcat] at h
          simp at h
        · rw [hcat] at h
          simp at h
      · rintro rfl ht
        rcases hsc with h | ⟨h, _⟩ | ⟨h, _⟩ | ⟨_, h⟩
        · rw [ht] at h
          simp at h
        · rw [ht] at h
          simp at h
        · rw [ht] at h
          simp at h
        · exact h rfl
  · intro db now pid uid p r b hp hH hr hb
    rcases calculateProductDiscount_ok_shape hp hr with ⟨hre, _⟩
      | ⟨b', hbdb, hbq, _, hre⟩
    · rw [hre] at hb
      simp at hb
    · subst hre
      have hbb : b' = b := by simpa using hb
      subst hbb
      obtain ⟨_, _, hsc⟩ := hbq
      constructor
      · intro hcat
        rcases hsc with h | ⟨_, h⟩ | h | ⟨h, _⟩
        · have := hH b' hbdb h
          rw [hcat] at this
          simp at this
        · exact h
        · rw [hcat] at h
          simp at h
        · rw [hcat] at h
          simp at h
      · rintro rfl ht
        rcases hsc with h | ⟨h, _⟩ | h | ⟨_, h⟩
        · have := hH b' hbdb h
          rw [ht] at this
          simp at this
        · rw [ht] at h
          simp at h
        · rw [ht] at h
          simp at h
        · simp [effectiveUserGroup] at h

/-- A `category`-typed discount for category "books" that nevertheless
lists product 1 (category "shoes") in its `products` array. -/
def dBooksListed : Discount :=
  ⟨7, 50, DiscountType.category, [1], ["books"], "", 0, 100, true⟩

def dbBooksListed : DB := ⟨[pShoes], [], [dBooksListed]⟩

/-- C5, counterexample: the single path selects the `category`-typed
discount as best for the "shoes" product although "shoes" is not among its
listed categories (it matched through the untyped `{products: productId}`
branch), refuting the claim for the single path. -/
theorem C5_counterexample :
    calculateProductDiscount dbBooksListed 5 1 none
      = Except.ok ⟨100, 50, some 50, some dBooksListed, true, some 50,
          some DiscountType.category⟩
    ∧ dBooksListed.type = DiscountType.category
    ∧ pShoes.category ∉ dBooksListed.categories := by
  refine ⟨?_, rfl, by decide⟩
  norm_num [calculateProductDiscount, calculateBestDiscount,
    getApplicableDiscounts, dbBooksListed, pShoes, dBooksListed, findProduct,
    List.find?, effectiveUserGroup, singleQueryMatch, List.filter,
    sortDesc, insertDesc, round2, jsRound, toFixed2, Except.map, List.head?]

/-- The bulk element produced for `pMidPrice` under the 10% general
discount. -/
def elemTenPct : PricedProduct :=
  ⟨pMidPrice, 9 / 200, 1 / 25, some 10, some dTenPct, true, some (1 / 100),
    some DiscountType.general⟩

/-- C5, witness: the bulk half of the amended statement evaluated on a
concrete bulk result. -/
theorem C5_witness :
    (dTenPct.type = DiscountType.category
      → elemTenPct.base.category ∈ dTenPct.categories)
    ∧ ((none : Option Nat) = none → dTenPct.type ≠ DiscountType.userGroup) :=
  C5_scope_correctness_amended.1 dbTenPct 5 [pMidPrice] none elemTenPct dTenPct
    (by
      rw [show applyBulkDiscounts dbTenPct 5 [pMidPrice] none = [elemTenPct] by
        norm_num [applyBulkDiscounts, dbTenPct, pMidPrice, dTenPct, elemTenPct,
          bulkQueryMatch, userGroupQueryMatch, effectiveUserGroup,
          perProductFilter, reduceBest, List.filter, round2, jsRound, toFixed2]]
      exact List.mem_singleton.mpr rfl)
    rfl

/-! ### Claim C1: bulk/single consistency on a one-element batch -/

/-- Under the proviso that only `product`-typed discounts list `p`'s id,
the set the bulk path's filtered pool admits for `p` (on the one-product
batch `[p]`) is exactly the set the single-product query matches. -/
theorem single_bulk_mem {db : DB} {now : Int} {p : Product} {uid : Option Nat}
    (H1 : ∀ d ∈ db.discounts, p.pId ∈ d.products → d.type = DiscountType.product)
    {d : Discount} :
    d ∈ ((db.discounts.filter (bulkQueryMatch [p.pId] ([p.category].dedup) now))
          ++ (match effectiveUserGroup db uid with
              | some g => db.discounts.filter (userGroupQueryMatch g now)
              | none => ([] : List Discount))).filter (perProductFilter uid p)
      ↔ d ∈ db.discounts
        ∧ queryApplicable p p.pId (effectiveUserGroup db uid) now d := by
  rw [List.mem_filter, List.mem_append]
  constructor
  · rintro ⟨hmem | hmem, hpf⟩
    · have hdb := (List.mem_filter.mp hmem).1
      obtain ⟨hsc, hwin, hact⟩ := bulkQueryMatch_iff.mp (List.mem_filter.mp hmem).2
      refine ⟨hdb, hwin, hact, ?_⟩
      rcases perProductFilter_iff.mp hpf with h | ⟨hc, hm⟩ | ⟨_, hm⟩ | ⟨hu, _⟩
      · exact Or.inr (Or.inr (Or.inl h))
      · exact Or.inr (Or.inl ⟨hc, hm⟩)
      · exact Or.inl hm
      · exfalso
        rcases hsc with ⟨x, hx1, hx2⟩ | ⟨hcat, _⟩ | hgen
        · have hxe : x = p.pId := by simpa using hx2
          subst hxe
          have htp := H1 d hdb hx1
          rw [hu] at htp
          simp at htp
        · rw [hu] at hcat
          simp at hcat
        · rw [hu] at hgen
          simp at hgen
    · cases hg : effectiveUserGroup db uid with
      | none =>
        rw [hg] at hmem
        exact absurd hmem (List.not_mem_nil d)
      | some g =>
        rw [hg] at hmem
        have hdb := (List.mem_filter.mp hmem).1
        obtain ⟨ht, hug, hwin, hact⟩ :=
          userGroupQueryMatch_iff.mp (List.mem_filter.mp hmem).2
        exact ⟨hdb, hwin, hact, Or.inr (Or.inr (Or.inr ⟨ht, by rw [hug]⟩))⟩
  · rintro ⟨hdb, hwin, hact, hsc⟩
    rcases hsc with hm | ⟨hc, hm⟩ | hgen | ⟨hu, hg⟩
    · have htype := H1 d hdb hm
      refine ⟨Or.inl (List.mem_filter.mpr ⟨hdb, bulkQueryMatch_iff.mpr
        ⟨Or.inl ⟨p.pId, hm, by simp⟩, hwin, hact⟩⟩), ?_⟩
      exact perProductFilter_iff.mpr (Or.inr (Or.inr (Or.inl ⟨htype, hm⟩)))
    · refine ⟨Or.inl (List.mem_filter.mpr ⟨hdb, bulkQueryMatch_iff.mpr
        ⟨Or.inr (Or.inl ⟨hc, p.category, hm, by simp [List.mem_dedup]⟩),
          hwin, hact⟩⟩), ?_⟩
      exact perProductFilter_iff.mpr (Or.inr (Or.inl ⟨hc, hm⟩))
    · exact ⟨Or.inl (List.mem_filter.mpr ⟨hdb, bulkQueryMatch_iff.mpr
        ⟨Or.inr (Or.inr hgen), hwin, hact⟩⟩),
        perProductFilter_iff.mpr (Or.inl hgen)⟩
    · refine ⟨Or.inr ?_, perProductFilter_iff.mpr (Or.inr (Or.inr (Or.inr
        ⟨hu, effectiveUserGroup_isSome hg⟩)))⟩
      rw [hg]
      exact List.mem_filter.mpr
        ⟨hdb, userGroupQueryMatch_iff.mpr ⟨hu, rfl, hwin, hact⟩⟩

/-- C1 (amended): on a one-product batch, `applyBulkDiscounts([P], U)[0]`
carries exactly the pricing fields of `calculateProductDiscount(P.id, U)`,
provided (i) the product id resolves to `P` itself, (ii) every stored
discount listing `P.id` in its `products` array has type `product` (the
untyped single-query branch otherwise admits discounts the bulk filter
rejects), and (iii) no two distinct query-matching discounts share a
percentage (the two paths break percentage ties in different orders). -/
theorem C1_bulk_single_amended (db : DB) (now : Int) (p : Product)
    (uid : Option Nat)
    (hp : findProduct db.products p.pId = some p)
    (H1 : ∀ d ∈ db.discounts, p.pId ∈ d.products → d.type = DiscountType.product)
    (H2 : ∀ d1 ∈ db.discounts, ∀ d2 ∈ db.discounts,
      queryApplicable p p.pId (effectiveUserGroup db uid) now d1 →
      queryApplicable p p.pId (effectiveUserGroup db uid) now d2 →
      d1.percentage = d2.percentage → d1 = d2) :
    (calculateProductDiscount db now p.pId uid).map (fun r => [r])
      = Except.ok ((applyBulkDiscounts db now [p] uid).map pricingOf) := by
  have hga : getApplicableDiscounts db now p.pId uid
      = Except.ok (sortDesc (db.discounts.filter
          (singleQueryMatch p p.pId (effectiveUserGroup db uid) now))) := by
    unfold getApplicableDiscounts
    rw [hp]
  have hbd : calculateBestDiscount db now p.pId uid
      = Except.ok (sortDesc (db.discounts.filter
          (singleQueryMatch p p.pId (effectiveUserGroup db uid) now))).head? := by
    unfold calculateBestDiscount
    rw [hga]
    rfl
  have hsingle_mem : ∀ d : Discount,
      d ∈ db.discounts.filter
        (singleQueryMatch p p.pId (effectiveUserGroup db uid) now)
      ↔ d ∈ db.discounts
        ∧ queryApplicable p p.pId (effectiveUserGroup db uid) now d := by
    intro d
    rw [List.mem_filter, singleQueryMatch_iff]
  have hbulk : applyBulkDiscounts db now [p] uid
      = [match reduceBest (((db.discounts.filter
            (bulkQueryMatch [p.pId] ([p.category].dedup) now))
            ++ (match effectiveUserGroup db uid with
                | some g => db.discounts.filter (userGroupQueryMatch g now)
                | none => ([] : List Discount))).filter (perProductFilter uid p)) with
          | none => (⟨p, p.price, p.price, none, none, false, none, none⟩ : PricedProduct)
          | some best =>
            ⟨p, p.price, round2 (p.price * ((100 - best.percentage) / 100)),
              some best.percentage, some best, true,
              some (toFixed2 (p.price
                - round2 (p.price * ((100 - best.percentage) / 100)))),
              some best.type⟩] := by
    simp only [applyBulkDiscounts, List.map_cons, List.map_nil]
  unfold calculateProductDiscount
  rw [hp, hbd, hbulk]
  cases hsort : sortDesc (db.discounts.filter
      (singleQueryMatch p p.pId (effectiveUserGroup db uid) now)) with
  | nil =>
    have hfil := sortDesc_eq_nil_iff.mp hsort
    have hBnil : ((db.discounts.filter
        (bulkQueryMatch [p.pId] ([p.category].dedup) now))
        ++ (match effectiveUserGroup db uid with
            | some g => db.discounts.filter (userGroupQueryMatch g now)
            | none => ([] : List Discount))).filter (perProductFilter uid p) = [] := by
      rw [List.eq_nil_iff_forall_not_mem]
      intro d hd
      have hq := (single_bulk_mem H1).mp hd
      have : d ∈ db.discounts.filter
          (singleQueryMatch p p.pId (effectiveUserGroup db uid) now) :=
        (hsingle_mem d).mpr hq
      rw [hfil] at this
      exact List.not_mem_nil d this
    rw [hBnil]
    rfl
  | cons b t =>
    obtain ⟨hbmemS, hbmaxS⟩ := sortDesc_head_max hsort
    have hbq := (hsingle_mem b).mp hbmemS
    have hbB : b ∈ ((db.discounts.filter
        (bulkQueryMatch [p.pId] ([p.category].dedup) now))
        ++ (match effectiveUserGroup db uid with
            | some g => db.discounts.filter (userGroupQueryMatch g now)
            | none => ([] : List Discount))).filter (perProductFilter uid p) :=
      (single_bulk_mem H1).mpr hbq
    cases hrb : reduceBest (((db.discounts.filter
        (bulkQueryMatch [p.pId] ([p.category].dedup) now))
        ++ (match effectiveUserGroup db uid with
            | some g => db.discounts.filter (userGroupQueryMatch g now)
            | none => ([] : List Discount))).filter (perProductFilter uid p)) with
    | none =>
      rw [reduceBest_eq_none_iff] at hrb
      rw [hrb] at hbB
      exact absurd hbB (List.not_mem_nil b)
    | some b2 =>
      obtain ⟨hb2mem, hb2max⟩ := reduceBest_mem_max hrb
      have hb2q := (single_bulk_mem H1).mp hb2mem
      have hle1 : b.percentage ≤ b2.percentage := hb2max b hbB
      have hle2 : b2.percentage ≤ b.percentage :=
        hbmaxS b2 ((hsingle_mem b2).mpr hb2q)
      have heq : b2 = b := H2 b2 hb2q.1 b hbq.1 hb2q.2 hbq.2 (le_antisymm hle2 hle1)
      subst heq
      rfl

/-- C1, counterexample: on the store `dbBooksListed` (a `category`-typed
discount for "books" listing product 1 in `products`), the single path
prices product 1 with that 50% discount while the bulk path on `[P]`
rejects it in the per-product filter and returns the no-discount shape —
so `bulkPricing([P])[0]` and `productPricing(P.id)` disagree. -/
theorem C1_counterexample :
    (calculateProductDiscount dbBooksListed 5 1 none).map (fun r => [r])
      ≠ Except.ok ((applyBulkDiscounts dbBooksListed 5 [pShoes] none).map pricingOf) := by
  have hL : calculateProductDiscount dbBooksListed 5 1 none
      = Except.ok ⟨100, 50, some 50, some dBooksListed, true, some 50,
          some DiscountType.category⟩ := by
    norm_num [calculateProductDiscount, calculateBestDiscount,
      getApplicableDiscounts, dbBooksListed, pShoes, dBooksListed, findProduct,
      List.find?, effectiveUserGroup, singleQueryMatch, List.filter,
      sortDesc, insertDesc, round2, jsRound, toFixed2, Except.map, List.head?]
  have hR : applyBulkDiscounts dbBooksListed 5 [pShoes] none
      = [⟨pShoes, 100, 100, none, none, false, none, none⟩] := by rfl
  rw [hL, hR]
  norm_num [pricingOf, Except.map]

/-- C1, witness: the amended equivalence evaluated on the concrete store
`dbTenPct` (one general 10% discount), where its provisos hold. -/
theorem C1_witness :
    (calculateProductDiscount dbTenPct 5 pMidPrice.pId none).map (fun r => [r])
      = Except.ok ((applyBulkDiscounts dbTenPct 5 [pMidPrice] none).map pricingOf) :=
  C1_bulk_single_amended dbTenPct 5 pMidPrice none
    (by norm_num [findProduct, dbTenPct, pMidPrice, List.find?])
    (by
      intro d hd hm
      simp only [dbTenPct] at hd
      rw [List.mem_singleton] at hd
      subst hd
      simp [dTenPct] at hm)
    (by
      intro d1 h1 d2 h2 _ _ _
      simp only [dbTenPct] at h1 h2
      rw [List.mem_singleton] at h1 h2
      rw [h1, h2])

end DiscountEngine
